import Mathlib

/-!
Shallow embedding of the mudrockdbcompare database-comparison tool.

The Go source is translated as follows: Go structs become Lean structures,
Go maps become association lists (`List (String × α)`) built with an
insert-or-replace operation mirroring map assignment, fallible database
queries become `Except String` values supplied as inputs (the query results
are the environment of each comparison function), and the console notices
printed by the comparison functions are materialised as `DiffEntry` values
so the information flow of the program is visible to the theorems.
-/

/-- Mirrors the Go struct `ColumnSchema` (types.go); `sql.NullString`
becomes `Option String`. -/
structure ColumnSchema where
  name : String
  dataType : String
  nullable : String
  key : String
  default : Option String
  extra : String
deriving DecidableEq

/-- Mirrors the Go struct `IndexSchema` (types.go). -/
structure IndexSchema where
  name : String
  columnName : String
  nonUnique : Int
deriving DecidableEq

/-- Mirrors the Go struct `ForeignKeySchema` (types.go). -/
structure ForeignKeySchema where
  name : String
  columnName : String
  referencedTable : String
  referencedColumn : String
deriving DecidableEq

/-- Mirrors the Go struct `TableSchema` (types.go). -/
structure TableSchema where
  name : String
  columns : List ColumnSchema
  indexes : List IndexSchema
  foreignKeys : List ForeignKeySchema
  primaryKeys : List String
deriving DecidableEq

/-- Association-list lookup, modelling a read `m[k]` of a Go map. -/
def lookupAssoc {α : Type} : List (String × α) → String → Option α
  | [], _ => none
  | (k', v) :: rest, k => if k' = k then some v else lookupAssoc rest k

/-- Association-list insert-or-replace, modelling a write `m[k] = v` of a
Go map. -/
def insertOrReplaceAssoc {α : Type} : List (String × α) → String → α → List (String × α)
  | [], k, v => [(k, v)]
  | (k', v') :: rest, k, v =>
    if k' = k then (k, v) :: rest else (k', v') :: insertOrReplaceAssoc rest k v

/-- Mirrors `contains` (util.go): linear scan for a string in a slice. -/
def contains : List String → String → Bool
  | [], _ => false
  | a :: rest, item => if a = item then true else contains rest item

/-- Mirrors `compareStringSlices` (util.go): length check, then the two
sets (Go maps used as sets, hence deduplicated) are compared for mutual
inclusion. -/
def compareStringSlices (a b : List String) : Bool :=
  if a.length ≠ b.length then false
  else
    let mapA := a.dedup
    let mapB := b.dedup
    (mapA.all fun v => mapB.contains v) && (mapB.all fun v => mapA.contains v)

/-- The three adapter variants of the tool. -/
inductive DatabaseAdapter where
  | mysql
  | postgres
  | sqlite
deriving DecidableEq

/-- Mirrors `GetAdapter` (adapter dispatch file): a switch on the engine
tag, with the default branch producing the unsupported-engine error. -/
def GetAdapter (dbType : String) : Except String DatabaseAdapter :=
  if dbType == "mysql" then .ok .mysql
  else if dbType == "postgres" then .ok .postgres
  else if dbType == "sqlite" then .ok .sqlite
  else .error ("unsupported database type: " ++ dbType)

/-- Mirrors Go's `sql.NullInt64`: a validity flag plus the integer value. -/
structure NullInt64 where
  valid : Bool
  int64 : Int
deriving DecidableEq

/-- Mirrors `MySQLAdapter.CompareTableDataByChecksum`: the two inputs are
the results of the two `CHECKSUM TABLE` queries (which may fail).  On a
query error the error propagates; otherwise the validity flags and values
are compared exactly as in the Go source. -/
def MySQLCompareTableDataByChecksum
    (sourceChecksum targetChecksum : Except String NullInt64) : Except String Bool :=
  match sourceChecksum with
  | .error e => .error e
  | .ok sc =>
    match targetChecksum with
    | .error e => .error e
    | .ok tc =>
      if !sc.valid && !tc.valid then .ok true
      else if sc.valid != tc.valid then .ok true
      else if sc.int64 ≠ tc.int64 then .ok true
      else .ok false

/-- The SQLite query results consumed by the SQLite data comparison:
the `COUNT(*)` result and the `SELECT total(rowid)` result for one side. -/
structure SQLiteTableData where
  rowCount : Except String Int
  rowidTotal : Except String Int

/-- Mirrors `SQLiteAdapter.CompareRowCounts`: both count queries must
succeed, and the pair of counts is returned. -/
def SQLiteCompareRowCounts (sourceCount targetCount : Except String Int) :
    Except String (Int × Int) :=
  match sourceCount with
  | .error e => .error e
  | .ok s =>
    match targetCount with
    | .error e => .error e
    | .ok t => .ok (s, t)

/-- Mirrors `SQLiteAdapter.CompareTableDataByChecksum` (sqlite_adapter.go):
row counts first; if they differ the function reports a difference without
consulting the rowid totals; otherwise the totals are fetched and
compared. -/
def SQLiteCompareTableDataByChecksum (src tgt : SQLiteTableData) : Except String Bool :=
  match SQLiteCompareRowCounts src.rowCount tgt.rowCount with
  | .error e => .error e
  | .ok (sourceCount, targetCount) =>
    if sourceCount ≠ targetCount then .ok true
    else
      match src.rowidTotal with
      | .error e => .error e
      | .ok sourceSum =>
        match tgt.rowidTotal with
        | .error e => .error e
        | .ok targetSum =>
          if sourceSum ≠ targetSum then .ok true else .ok false

/-- One iteration of the progress-reporting loop in `main`: the percentage
`i * 100 / totalTables` is emitted exactly when it exceeds the last
reported value (which starts at `-1`). -/
def progressStep (totalTables : Nat) (acc : List Nat × Int) (i : Nat) : List Nat × Int :=
  let currentPercent := i * 100 / totalTables
  if (currentPercent : Int) > acc.2 then (acc.1 ++ [currentPercent], (currentPercent : Int))
  else acc

/-- The sequence of progress percentages printed by the data-verification
loop of `main`, including the unconditional final `Progress: 100%` line. -/
def progressEmissions (totalTables : Nat) : List Nat :=
  ((List.range totalTables).foldl (progressStep totalTables) ([], -1)).1 ++ [100]

/-- One difference or notice produced by the comparison engine.  Each
constructor corresponds to exactly one `fmt.Sprintf` / `fmt.Printf` format
string of compare.go, with the format arguments as constructor fields: the
first five are the entries appended to the `differences` slice by
`compareTableSchema`; the remaining ones are the console notices printed by
`compareIndexes` and `compareForeignKeys`. -/
inductive DiffEntry where
  | columnOnlyInSource (tableName colName : String)
  | columnOnlyInTarget (tableName colName : String)
  | columnDataTypeDiff (tableName colName sourceType targetType : String)
  | columnNullableDiff (tableName colName sourceNullable targetNullable : String)
  | primaryKeysDiff (tableName : String) (sourcePKs targetPKs : List String)
  | indexOnlyInSource (indexName : String) (columns : List String) (tableName : String)
  | indexColumnOnlyInSource (colName indexName tableName : String)
  | indexUniquenessDiff (indexName colName tableName : String) (sourceUnique targetUnique : Bool)
  | indexColumnOnlyInTarget (colName indexName tableName : String)
  | indexOnlyInTarget (indexName : String) (columns : List String) (tableName : String)
  | fkOnlyInSource (fkName tableName colName referencedTable referencedColumn : String)
  | fkOnlyInTarget (fkName tableName colName referencedTable referencedColumn : String)
deriving DecidableEq

/-- True exactly on the index and foreign-key console notices, the entry
kinds that `compareTableSchema` never produces. -/
def DiffEntry.isIndexOrForeignKeyNotice : DiffEntry → Bool
  | .indexOnlyInSource _ _ _ => true
  | .indexColumnOnlyInSource _ _ _ => true
  | .indexUniquenessDiff _ _ _ _ _ => true
  | .indexColumnOnlyInTarget _ _ _ => true
  | .indexOnlyInTarget _ _ _ => true
  | .fkOnlyInSource _ _ _ _ _ => true
  | .fkOnlyInTarget _ _ _ _ _ => true
  | _ => false

/-- True exactly on the primary-key difference entry. -/
def DiffEntry.isPrimaryKeysDiff : DiffEntry → Bool
  | .primaryKeysDiff _ _ _ => true
  | _ => false

/-- Classifier for a "column exists in source but not in target" entry
about the given column. -/
def isColumnOnlyInSourceFor (colName : String) : DiffEntry → Bool
  | .columnOnlyInSource _ n => n == colName
  | _ => false

/-- Classifier for a "column exists in target but not in source" entry
about the given column. -/
def isColumnOnlyInTargetFor (colName : String) : DiffEntry → Bool
  | .columnOnlyInTarget _ n => n == colName
  | _ => false

/-- Classifier for a data-type mismatch entry about the given column. -/
def isDataTypeDiffFor (colName : String) : DiffEntry → Bool
  | .columnDataTypeDiff _ n _ _ => n == colName
  | _ => false

/-- Classifier for a nullable mismatch entry about the given column. -/
def isNullableDiffFor (colName : String) : DiffEntry → Bool
  | .columnNullableDiff _ n _ _ => n == colName
  | _ => false

/-- Mirrors the map-building loops of `compareTableSchema`: a Go map from
column name to `ColumnSchema` built by successive assignments. -/
def buildColumnMap (cols : List ColumnSchema) : List (String × ColumnSchema) :=
  cols.foldl (fun m col => insertOrReplaceAssoc m col.name col) []

/-- Mirrors the else-branch of the first column loop of
`compareTableSchema`: the two property comparisons of a column present on
both sides, each appending one entry and raising the flag on mismatch. -/
def comparePresentColumn (tableName colName : String) (sourceCol targetCol : ColumnSchema)
    (acc : Bool × List DiffEntry) : Bool × List DiffEntry :=
  let acc1 :=
    if sourceCol.dataType ≠ targetCol.dataType then
      (true, acc.2 ++ [DiffEntry.columnDataTypeDiff tableName colName
        sourceCol.dataType targetCol.dataType])
    else acc
  if sourceCol.nullable ≠ targetCol.nullable then
    (true, acc1.2 ++ [DiffEntry.columnNullableDiff tableName colName
      sourceCol.nullable targetCol.nullable])
  else acc1

/-- Mirrors `compareTableSchema` (compare.go): column maps are built for
both sides, the source map is scanned for missing columns and property
mismatches, the target map is scanned for extra columns, and finally the
primary-key lists are compared with `compareStringSlices`.  Returns the
`hasDifferences` flag and the `differences` list. -/
def compareTableSchema (tableName : String) (sourceSchema targetSchema : TableSchema) :
    Bool × List DiffEntry :=
  let sourceColumns := buildColumnMap sourceSchema.columns
  let targetColumns := buildColumnMap targetSchema.columns
  let acc1 := sourceColumns.foldl
    (fun acc p =>
      match lookupAssoc targetColumns p.1 with
      | none => (true, acc.2 ++ [DiffEntry.columnOnlyInSource tableName p.1])
      | some targetCol => comparePresentColumn tableName p.1 p.2 targetCol acc)
    (false, [])
  let acc2 := targetColumns.foldl
    (fun acc p =>
      match lookupAssoc sourceColumns p.1 with
      | none => (true, acc.2 ++ [DiffEntry.columnOnlyInTarget tableName p.1])
      | some _ => acc)
    acc1
  if !(compareStringSlices sourceSchema.primaryKeys targetSchema.primaryKeys) then
    (true, acc2.2 ++ [DiffEntry.primaryKeysDiff tableName
      sourceSchema.primaryKeys targetSchema.primaryKeys])
  else acc2

/-- Mirrors `compareDatabases` (compare.go): one pass over the source map
collecting missing and common tables and per-table schema differences, one
pass over the target map collecting extra tables.  Returns
`(missing, extra, common, schemaDifferences)`. -/
def compareDatabases (sourceSchemas targetSchemas : List (String × TableSchema)) :
    List String × List String × List String × List (String × List DiffEntry) :=
  let firstPass := sourceSchemas.foldl
    (fun (acc : List String × List String × List (String × List DiffEntry)) p =>
      match lookupAssoc targetSchemas p.1 with
      | none => (acc.1 ++ [p.1], acc.2.1, acc.2.2)
      | some targetSchema =>
        let res := compareTableSchema p.1 p.2 targetSchema
        let newDiffs := if res.1 then acc.2.2 ++ [(p.1, res.2)] else acc.2.2
        (acc.1, acc.2.1 ++ [p.1], newDiffs))
    ([], [], [])
  let extraTables := targetSchemas.foldl
    (fun acc p =>
      match lookupAssoc sourceSchemas p.1 with
      | none => acc ++ [p.1]
      | some _ => acc)
    []
  (firstPass.1, extraTables, firstPass.2.1, firstPass.2.2)

/-- Mirrors the nested map building of `compareIndexes`: a Go map from
index name to a map from column name to `IndexSchema`. -/
def buildIndexMap (idxs : List IndexSchema) : List (String × List (String × IndexSchema)) :=
  idxs.foldl
    (fun m idx =>
      let inner := (lookupAssoc m idx.name).getD []
      insertOrReplaceAssoc m idx.name (insertOrReplaceAssoc inner idx.columnName idx))
    []

/-- Mirrors `compareIndexes` (compare.go): the printed notices are
materialised in iteration order, and the returned flag is the
`hasDifferences` local, which the Go function initialises to `false` and
never assigns again. -/
def compareIndexes (tableName : String) (sourceIndexes targetIndexes : List IndexSchema) :
    List DiffEntry × Bool :=
  let hasDifferences := false
  let sourceIndexMap := buildIndexMap sourceIndexes
  let targetIndexMap := buildIndexMap targetIndexes
  let sourcePass := sourceIndexMap.flatMap
    (fun p =>
      match lookupAssoc targetIndexMap p.1 with
      | none => [DiffEntry.indexOnlyInSource p.1 (p.2.map Prod.fst) tableName]
      | some targetInner =>
        p.2.flatMap
          (fun q =>
            match lookupAssoc targetInner q.1 with
            | none => [DiffEntry.indexColumnOnlyInSource q.1 p.1 tableName]
            | some tIdx =>
              if q.2.nonUnique ≠ tIdx.nonUnique then
                [DiffEntry.indexUniquenessDiff p.1 q.1 tableName
                  (q.2.nonUnique == 0) (tIdx.nonUnique == 0)]
              else []) ++
        targetInner.flatMap
          (fun q =>
            match lookupAssoc p.2 q.1 with
            | none => [DiffEntry.indexColumnOnlyInTarget q.1 p.1 tableName]
            | some _ => []))
  let targetPass := targetIndexMap.flatMap
    (fun p =>
      match lookupAssoc sourceIndexMap p.1 with
      | none => [DiffEntry.indexOnlyInTarget p.1 (p.2.map Prod.fst) tableName]
      | some _ => [])
  (sourcePass ++ targetPass, hasDifferences)

/-- The composite key `name_column_referencedTable_referencedColumn` used
by `compareForeignKeys`. -/
def fkKey (fk : ForeignKeySchema) : String :=
  fk.name ++ "_" ++ fk.columnName ++ "_" ++ fk.referencedTable ++ "_" ++ fk.referencedColumn

/-- Mirrors the map building of `compareForeignKeys`. -/
def buildFKMap (fks : List ForeignKeySchema) : List (String × ForeignKeySchema) :=
  fks.foldl (fun m fk => insertOrReplaceAssoc m (fkKey fk) fk) []

/-- Mirrors `compareForeignKeys` (compare.go): the printed notices are
materialised, and the returned flag is the `hasDifferences` local, which
the Go function initialises to `false` and never assigns again. -/
def compareForeignKeys (tableName : String) (sourceFKs targetFKs : List ForeignKeySchema) :
    List DiffEntry × Bool :=
  let hasDifferences := false
  let sourceFKMap := buildFKMap sourceFKs
  let targetFKMap := buildFKMap targetFKs
  let sourcePass := sourceFKMap.flatMap
    (fun p =>
      match lookupAssoc targetFKMap p.1 with
      | none => [DiffEntry.fkOnlyInSource p.2.name tableName p.2.columnName
          p.2.referencedTable p.2.referencedColumn]
      | some _ => [])
  let targetPass := targetFKMap.flatMap
    (fun p =>
      match lookupAssoc sourceFKMap p.1 with
      | none => [DiffEntry.fkOnlyInTarget p.2.name tableName p.2.columnName
          p.2.referencedTable p.2.referencedColumn]
      | some _ => [])
  (sourcePass ++ targetPass, hasDifferences)

/-- The part of the Go `ComparisonSummary` populated by the
data-verification loop of `main` (the map `DifferentRowCounts` is an
association list here). -/
structure ComparisonSummary where
  differentTables : List String
  differentRowCounts : List (String × (Int × Int))
deriving DecidableEq

/-- Mirrors the summary-accumulation section of `main`: first every table
with schema differences is added to `DifferentTables` guarded by
`contains`, then the loop over common tables records each row-count
mismatch in `DifferentRowCounts` and appends the table to
`DifferentTables` (without a `contains` guard, exactly as in the source);
a row-count query error skips the table. -/
def runDataVerification (schemaDifferences : List (String × List DiffEntry))
    (commonTables : List String) (rowCounts : String → Except String (Int × Int)) :
    ComparisonSummary :=
  let init : ComparisonSummary :=
    { differentTables := schemaDifferences.foldl
        (fun acc p => if contains acc p.1 then acc else acc ++ [p.1]) []
      differentRowCounts := [] }
  commonTables.foldl
    (fun summary tableName =>
      match rowCounts tableName with
      | .error _ => summary
      | .ok (sourceCount, targetCount) =>
        if sourceCount ≠ targetCount then
          { differentTables := summary.differentTables ++ [tableName]
            differentRowCounts := insertOrReplaceAssoc summary.differentRowCounts
              tableName (sourceCount, targetCount) }
        else summary)
    init

/-- Fixture: a one-column table whose column has data type INTEGER. -/
def fixtureSourceTableT : TableSchema :=
  ⟨"t", [⟨"c", "INTEGER", "NO", "", none, ""⟩], [], [], []⟩

/-- Fixture: the same table with the column retyped to TEXT. -/
def fixtureTargetTableT : TableSchema :=
  ⟨"t", [⟨"c", "TEXT", "NO", "", none, ""⟩], [], [], []⟩

/-- Fixture: source side of the column symmetric-difference example. -/
def fixtureC4Source : TableSchema :=
  ⟨"t", [⟨"a", "INT", "NO", "", none, ""⟩, ⟨"b", "INT", "YES", "", none, ""⟩], [], [], []⟩

/-- Fixture: target side of the column symmetric-difference example. -/
def fixtureC4Target : TableSchema :=
  ⟨"t", [⟨"b", "TEXT", "NO", "", none, ""⟩, ⟨"d", "INT", "YES", "", none, ""⟩], [], [], []⟩

/-- Fixture: a table with primary keys declared in the order a, b. -/
def fixturePKSource : TableSchema := ⟨"t", [], [], [], ["a", "b"]⟩

/-- Fixture: the same table with primary keys declared in the order b, a. -/
def fixturePKTarget : TableSchema := ⟨"t", [], [], [], ["b", "a"]⟩

/-- Fixture: an empty table schema used as a map value for the partition
example. -/
def fixtureEmptySchema (n : String) : TableSchema := ⟨n, [], [], [], []⟩

/-- Fixture: source table map with tables users and orders. -/
def fixtureSourceMap : List (String × TableSchema) :=
  [("users", fixtureEmptySchema "users"), ("orders", fixtureEmptySchema "orders")]

/-- Fixture: target table map with tables users and products. -/
def fixtureTargetMap : List (String × TableSchema) :=
  [("users", fixtureEmptySchema "users"), ("products", fixtureEmptySchema "products")]

/-- The `hasDifferences` contribution of one source-side column-map entry
in the first loop of `compareTableSchema` (characterisation helper). -/
def sourceColumnFlag (targetColumns : List (String × ColumnSchema))
    (p : String × ColumnSchema) : Bool :=
  match lookupAssoc targetColumns p.1 with
  | none => true
  | some targetCol =>
    decide (p.2.dataType ≠ targetCol.dataType) || decide (p.2.nullable ≠ targetCol.nullable)

/-- The difference entries contributed by one source-side column-map entry
in the first loop of `compareTableSchema` (characterisation helper). -/
def sourceColumnEntry (tableName : String) (targetColumns : List (String × ColumnSchema))
    (p : String × ColumnSchema) : List DiffEntry :=
  match lookupAssoc targetColumns p.1 with
  | none => [DiffEntry.columnOnlyInSource tableName p.1]
  | some targetCol =>
    (if p.2.dataType ≠ targetCol.dataType then
      [DiffEntry.columnDataTypeDiff tableName p.1 p.2.dataType targetCol.dataType]
    else []) ++
    (if p.2.nullable ≠ targetCol.nullable then
      [DiffEntry.columnNullableDiff tableName p.1 p.2.nullable targetCol.nullable]
    else [])

/-- The `hasDifferences` contribution of one target-side column-map entry
in the second loop of `compareTableSchema` (characterisation helper). -/
def targetColumnFlag (sourceColumns : List (String × ColumnSchema))
    (p : String × ColumnSchema) : Bool :=
  (lookupAssoc sourceColumns p.1).isNone

/-- The difference entries contributed by one target-side column-map entry
in the second loop of `compareTableSchema` (characterisation helper). -/
def targetColumnEntry (tableName : String) (sourceColumns : List (String × ColumnSchema))
    (p : String × ColumnSchema) : List DiffEntry :=
  match lookupAssoc sourceColumns p.1 with
  | none => [DiffEntry.columnOnlyInTarget tableName p.1]
  | some _ => []

/-- The missing-tables contribution of one source-map entry in the first
loop of `compareDatabases` (characterisation helper). -/
def missingEntry (targetSchemas : List (String × TableSchema)) (p : String × TableSchema) :
    List String :=
  match lookupAssoc targetSchemas p.1 with
  | none => [p.1]
  | some _ => []

/-- The common-tables contribution of one source-map entry in the first
loop of `compareDatabases` (characterisation helper). -/
def commonEntry (targetSchemas : List (String × TableSchema)) (p : String × TableSchema) :
    List String :=
  match lookupAssoc targetSchemas p.1 with
  | none => []
  | some _ => [p.1]

/-- The schema-differences contribution of one source-map entry in the
first loop of `compareDatabases` (characterisation helper). -/
def schemaDiffEntry (targetSchemas : List (String × TableSchema)) (p : String × TableSchema) :
    List (String × List DiffEntry) :=
  match lookupAssoc targetSchemas p.1 with
  | none => []
  | some targetSchema =>
    let res := compareTableSchema p.1 p.2 targetSchema
    if res.1 then [(p.1, res.2)] else []

/-- The extra-tables contribution of one target-map entry in the second
loop of `compareDatabases` (characterisation helper). -/
def extraEntry (sourceSchemas : List (String × TableSchema)) (p : String × TableSchema) :
    List String :=
  match lookupAssoc sourceSchemas p.1 with
  | none => [p.1]
  | some _ => []

/-! ### Helper lemmas -/

lemma lookupAssoc_eq_none_iff {α : Type} (m : List (String × α)) (k : String) :
    lookupAssoc m k = none ↔ k ∉ m.map Prod.fst := by
  induction m with
  | nil => simp [lookupAssoc]
  | cons p rest ih =>
    obtain ⟨k', v⟩ := p
    by_cases h : k' = k
    · subst h
      simp [lookupAssoc]
    · simp only [lookupAssoc, if_neg h, List.map_cons, List.mem_cons, not_or, ih]
      constructor
      · intro hk
        exact ⟨fun he => h he.symm, hk⟩
      · intro hk
        exact hk.2

lemma compareStringSlices_eq_true_iff (a b : List String) :
    compareStringSlices a b = true ↔ a.length = b.length ∧ ∀ x, x ∈ a ↔ x ∈ b := by
  by_cases h : a.length = b.length
  · simp only [compareStringSlices, h, ne_eq, not_true_eq_false, if_false,
      Bool.and_eq_true, List.all_eq_true, List.elem_iff, List.mem_dedup, true_and]
    constructor
    · rintro ⟨h1, h2⟩ x
      exact ⟨h1 x, h2 x⟩
    · intro hx
      exact ⟨fun x hxa => (hx x).1 hxa, fun x hxb => (hx x).2 hxb⟩
  · simp [compareStringSlices, h]

/-! ### Claim theorems: dispatch, adapters, progress, summary -/

/-- C8: for every engine-tag string other than mysql, postgres and sqlite,
`GetAdapter` fails with the unsupported-engine error and returns no
adapter; for each supported tag it returns the corresponding adapter
variant with no error. -/
theorem GetAdapter_dispatch :
    (∀ s : String, s ≠ "mysql" → s ≠ "postgres" → s ≠ "sqlite" →
      GetAdapter s = .error ("unsupported database type: " ++ s)) ∧
    GetAdapter "mysql" = .ok .mysql ∧
    GetAdapter "postgres" = .ok .postgres ∧
    GetAdapter "sqlite" = .ok .sqlite := by
  refine ⟨?_, rfl, rfl, rfl⟩
  intro s h1 h2 h3
  simp [GetAdapter, h1, h2, h3]

/-- Witness for C8: the unknown tag oracle is rejected with the
unsupported-engine error and the mysql tag resolves to the MySQL
adapter. -/
theorem GetAdapter_dispatch_witness :
    GetAdapter "oracle" = .error ("unsupported database type: " ++ "oracle") ∧
    GetAdapter "mysql" = .ok .mysql :=
  ⟨GetAdapter_dispatch.1 "oracle" (by decide) (by decide) (by decide),
   GetAdapter_dispatch.2.1⟩

/-- C1 counterexample: when both MySQL checksum queries return a NULL
(invalid) checksum, `MySQLAdapter.CompareTableDataByChecksum` returns
`Differs = true`, not `Differs = false` as the claim states. -/
theorem mysql_checksum_both_null_cex :
    MySQLCompareTableDataByChecksum (.ok ⟨false, 0⟩) (.ok ⟨false, 0⟩) = .ok true ∧
    MySQLCompareTableDataByChecksum (.ok ⟨false, 0⟩) (.ok ⟨false, 0⟩) ≠ .ok false := by
  refine ⟨rfl, fun h => ?_⟩
  rw [show MySQLCompareTableDataByChecksum (.ok ⟨false, 0⟩) (.ok ⟨false, 0⟩) = .ok true from rfl]
    at h
  exact Bool.noConfusion (Except.ok.inj h)

/-- C1 (amended): for every pair of MySQL checksum query results in which
neither side's checksum is valid, `CompareTableDataByChecksum` reports a
difference (`Differs = true`), so the unavailability of the signal is
surfaced to the caller as a difference rather than treated as equality. -/
theorem mysql_checksum_both_null_reports_diff (sc tc : NullInt64)
    (h1 : sc.valid = false) (h2 : tc.valid = false) :
    MySQLCompareTableDataByChecksum (.ok sc) (.ok tc) = .ok true := by
  simp [MySQLCompareTableDataByChecksum, h1, h2]

/-- Witness for the amended C1 at two concrete invalid checksums. -/
theorem mysql_checksum_both_null_reports_diff_witness :
    MySQLCompareTableDataByChecksum (.ok ⟨false, 7⟩) (.ok ⟨false, 9⟩) = .ok true :=
  mysql_checksum_both_null_reports_diff ⟨false, 7⟩ ⟨false, 9⟩ rfl rfl

/-- C7: `SQLiteAdapter.CompareTableDataByChecksum` applies its two tiers
in order: when the row counts differ it returns `Differs = true` without
consulting the rowid totals (which may even be failing queries); when the
row counts are equal it returns `Differs = true` exactly when the
`total(rowid)` aggregates differ. -/
theorem sqlite_checksum_tiered (src tgt : SQLiteTableData) (sc tc : Int)
    (hs : src.rowCount = .ok sc) (ht : tgt.rowCount = .ok tc) :
    (sc ≠ tc → SQLiteCompareTableDataByChecksum src tgt = .ok true) ∧
    (sc = tc → ∀ ss ts : Int, src.rowidTotal = .ok ss → tgt.rowidTotal = .ok ts →
      (SQLiteCompareTableDataByChecksum src tgt = .ok true ↔ ss ≠ ts)) := by
  constructor
  · intro hne
    simp [SQLiteCompareTableDataByChecksum, SQLiteCompareRowCounts, hs, ht, hne]
  · intro heq ss ts hss hts
    subst heq
    by_cases h : ss = ts
    · simp [SQLiteCompareTableDataByChecksum, SQLiteCompareRowCounts, hs, ht, hss, hts, h]
    · simp [SQLiteCompareTableDataByChecksum, SQLiteCompareRowCounts, hs, ht, hss, hts, h]

/-- Witness for C7: with counts 5 and 7 the verdict is a difference even
though both rowid-total queries fail, and with equal counts and equal
totals the verdict matches the total comparison. -/
theorem sqlite_checksum_tiered_witness :
    SQLiteCompareTableDataByChecksum ⟨.ok 5, .error "boom"⟩ ⟨.ok 7, .error "boom"⟩ = .ok true ∧
    (SQLiteCompareTableDataByChecksum ⟨.ok 5, .ok 15⟩ ⟨.ok 5, .ok 15⟩ = .ok true ↔
      (15 : Int) ≠ 15) :=
  ⟨(sqlite_checksum_tiered _ _ 5 7 rfl rfl).1 (by decide),
   (sqlite_checksum_tiered _ _ 5 5 rfl rfl).2 rfl 15 15 rfl rfl⟩

/-- C2 (code refutation): at the failing input — a table t whose column c
has data type INTEGER in the source and TEXT in the target, and whose row
counts are 100 versus 101 — the summary accumulation of `main` appends t
to `DifferentTables` once for the schema difference and again, unguarded,
for the row-count difference, so the accumulated list is `[t, t]` and not
duplicate-free. -/
theorem runDataVerification_duplicates_table :
    (runDataVerification
        (compareDatabases [("t", fixtureSourceTableT)] [("t", fixtureTargetTableT)]).2.2.2
        (compareDatabases [("t", fixtureSourceTableT)] [("t", fixtureTargetTableT)]).2.2.1
        (fun _ => .ok (100, 101))).differentTables = ["t", "t"] := by
  rfl

lemma progress_fold_inv (n : Nat) (hn : 0 < n) :
    ∀ (l : List Nat), (∀ i ∈ l, i < n) → ∀ acc : List Nat × Int,
      List.Pairwise (· < ·) acc.1 → (∀ x ∈ acc.1, (x : Int) ≤ acc.2) →
      (∀ x ∈ acc.1, x < 100) →
      List.Pairwise (· < ·) (l.foldl (progressStep n) acc).1 ∧
      (∀ x ∈ (l.foldl (progressStep n) acc).1, (x : Int) ≤ (l.foldl (progressStep n) acc).2) ∧
      (∀ x ∈ (l.foldl (progressStep n) acc).1, x < 100) := by
  intro l
  induction l with
  | nil =>
    intro _ acc h1 h2 h3
    exact ⟨h1, h2, h3⟩
  | cons i rest ih =>
    intro hl acc h1 h2 h3
    have hi : i < n := hl i (by simp)
    have hrest : ∀ j ∈ rest, j < n := fun j hj => hl j (by simp [hj])
    have hp100 : i * 100 / n < 100 := by
      rw [Nat.div_lt_iff_lt_mul hn]
      omega
    rw [List.foldl_cons]
    by_cases hgt : ((i * 100 / n : Nat) : Int) > acc.2
    · have hstep : progressStep n acc i = (acc.1 ++ [i * 100 / n], ((i * 100 / n : Nat) : Int)) := by
        simp only [progressStep]
        rw [if_pos hgt]
      rw [hstep]
      refine ih hrest _ ?_ ?_ ?_
      · rw [List.pairwise_append]
        refine ⟨h1, by simp, ?_⟩
        intro a ha b hb
        have hb' : b = i * 100 / n := by simpa using hb
        subst hb'
        have : (a : Int) < ((i * 100 / n : Nat) : Int) := lt_of_le_of_lt (h2 a ha) hgt
        exact_mod_cast this
      · intro x hx
        rcases List.mem_append.1 hx with hx | hx
        · exact le_of_lt (lt_of_le_of_lt (h2 x hx) hgt)
        · have hx' : x = i * 100 / n := by simpa using hx
          subst hx'
          exact le_refl _
      · intro x hx
        rcases List.mem_append.1 hx with hx | hx
        · exact h3 x hx
        · have hx' : x = i * 100 / n := by simpa using hx
          subst hx'
          exact hp100
    · have hstep : progressStep n acc i = acc := by
        simp only [progressStep]
        rw [if_neg hgt]
      rw [hstep]
      exact ih hrest acc h1 h2 h3

/-- C9: for every non-empty sequence of common tables, the sequence of
progress percentages emitted by the data-verification loop of `main`,
including the unconditional final marker, is strictly increasing (so no
percentage line repeats) and ends with the 100 percent marker. -/
theorem progressEmissions_strictly_increasing (n : Nat) (hn : 0 < n) :
    List.Pairwise (· < ·) (progressEmissions n) ∧
    (progressEmissions n).getLast? = some 100 := by
  have hrange : ∀ i ∈ List.range n, i < n := fun i hi => List.mem_range.1 hi
  have hinv := progress_fold_inv n hn (List.range n) hrange ([], -1)
    (by simp) (by simp) (by simp)
  unfold progressEmissions
  refine ⟨?_, List.getLast?_concat _⟩
  rw [List.pairwise_append]
  refine ⟨hinv.1, by simp, ?_⟩
  intro a ha b hb
  have hb' : b = 100 := by simpa using hb
  subst hb'
  exact hinv.2.2 a ha

/-- Witness for C9 at three common tables: the emitted sequence is
0, 33, 66, 100. -/
theorem progressEmissions_strictly_increasing_witness :
    List.Pairwise (· < ·) (progressEmissions 3) ∧
    (progressEmissions 3).getLast? = some 100 :=
  progressEmissions_strictly_increasing 3 (by decide)

/-- C10: `compareStringSlices` returns true exactly when the two lists
have equal length and equal sets of distinct elements; in particular two
lists of equal length that agree as sets but not as multisets compare
equal. -/
theorem compareStringSlices_set_semantics :
    (∀ a b : List String, compareStringSlices a b = true ↔
      (a.length = b.length ∧ ∀ x, x ∈ a ↔ x ∈ b)) ∧
    compareStringSlices ["a", "a", "b"] ["a", "b", "b"] = true := by
  refine ⟨fun a b => compareStringSlices_eq_true_iff a b, ?_⟩
  decide

/-- Witness for C10: the characterisation applied at a concrete pair of
lists that are permutations of each other. -/
theorem compareStringSlices_set_semantics_witness :
    compareStringSlices ["x", "y"] ["y", "x"] = true :=
  (compareStringSlices_set_semantics.1 ["x", "y"] ["y", "x"]).mpr
    ⟨rfl, fun x => by constructor <;> (intro h; simpa [or_comm] using h)⟩

lemma foldl_flag_append {α β : Type} (l : List α) (fl : α → Bool) (f : α → List β)
    (step : Bool × List β → α → Bool × List β)
    (hstep : ∀ acc p, step acc p = (acc.1 || fl p, acc.2 ++ f p)) :
    ∀ (b0 : Bool) (d0 : List β),
      l.foldl step (b0, d0) = (b0 || l.any fl, d0 ++ l.flatMap f) := by
  induction l with
  | nil =>
    intro b0 d0
    simp
  | cons p rest ih =>
    intro b0 d0
    rw [List.foldl_cons, hstep, ih]
    simp [Bool.or_assoc, List.append_assoc]

lemma foldl_append_shape {α β : Type} (l : List α) (f : α → List β)
    (step : List β → α → List β) (hstep : ∀ acc p, step acc p = acc ++ f p) :
    ∀ a : List β, l.foldl step a = a ++ l.flatMap f := by
  induction l with
  | nil =>
    intro a
    simp
  | cons p rest ih =>
    intro a
    rw [List.foldl_cons, hstep, ih]
    simp [List.append_assoc]

lemma foldl_triple_append {α β γ δ : Type} (l : List α) (f : α → List β) (g : α → List γ)
    (h : α → List δ) (step : List β × List γ × List δ → α → List β × List γ × List δ)
    (hstep : ∀ acc p, step acc p = (acc.1 ++ f p, acc.2.1 ++ g p, acc.2.2 ++ h p)) :
    ∀ (a : List β) (b : List γ) (c : List δ),
      l.foldl step (a, b, c) = (a ++ l.flatMap f, b ++ l.flatMap g, c ++ l.flatMap h) := by
  induction l with
  | nil =>
    intro a b c
    simp
  | cons p rest ih =>
    intro a b c
    rw [List.foldl_cons, hstep, ih]
    simp [List.append_assoc]

lemma comparePresentColumn_eq (t n : String) (sc tc : ColumnSchema)
    (acc : Bool × List DiffEntry) :
    comparePresentColumn t n sc tc acc =
      (acc.1 || (decide (sc.dataType ≠ tc.dataType) || decide (sc.nullable ≠ tc.nullable)),
       acc.2 ++
        ((if sc.dataType ≠ tc.dataType then
            [DiffEntry.columnDataTypeDiff t n sc.dataType tc.dataType] else []) ++
         (if sc.nullable ≠ tc.nullable then
            [DiffEntry.columnNullableDiff t n sc.nullable tc.nullable] else []))) := by
  by_cases h1 : sc.dataType = tc.dataType <;> by_cases h2 : sc.nullable = tc.nullable <;>
    simp [comparePresentColumn, h1, h2]

lemma sourceStep_eq (t : String) (targetColumns : List (String × ColumnSchema))
    (acc : Bool × List DiffEntry) (p : String × ColumnSchema) :
    (match lookupAssoc targetColumns p.1 with
     | none => (true, acc.2 ++ [DiffEntry.columnOnlyInSource t p.1])
     | some targetCol => comparePresentColumn t p.1 p.2 targetCol acc)
    = (acc.1 || sourceColumnFlag targetColumns p, acc.2 ++ sourceColumnEntry t targetColumns p) := by
  cases h : lookupAssoc targetColumns p.1 with
  | none => simp [sourceColumnFlag, sourceColumnEntry, h]
  | some tc => simp [sourceColumnFlag, sourceColumnEntry, h, comparePresentColumn_eq]

lemma targetStep_eq (t : String) (sourceColumns : List (String × ColumnSchema))
    (acc : Bool × List DiffEntry) (p : String × ColumnSchema) :
    (match lookupAssoc sourceColumns p.1 with
     | none => (true, acc.2 ++ [DiffEntry.columnOnlyInTarget t p.1])
     | some _ => acc)
    = (acc.1 || targetColumnFlag sourceColumns p, acc.2 ++ targetColumnEntry t sourceColumns p) := by
  cases h : lookupAssoc sourceColumns p.1 with
  | none => simp [targetColumnFlag, targetColumnEntry, h]
  | some tc => simp [targetColumnFlag, targetColumnEntry, h]

lemma compareTableSchema_snd (t : String) (s1 s2 : TableSchema) :
    (compareTableSchema t s1 s2).2 =
      (buildColumnMap s1.columns).flatMap (sourceColumnEntry t (buildColumnMap s2.columns)) ++
      (buildColumnMap s2.columns).flatMap (targetColumnEntry t (buildColumnMap s1.columns)) ++
      (if compareStringSlices s1.primaryKeys s2.primaryKeys then []
       else [DiffEntry.primaryKeysDiff t s1.primaryKeys s2.primaryKeys]) := by
  simp only [compareTableSchema]
  rw [foldl_flag_append _ (sourceColumnFlag (buildColumnMap s2.columns))
      (sourceColumnEntry t (buildColumnMap s2.columns)) _
      (fun acc p => sourceStep_eq t (buildColumnMap s2.columns) acc p)]
  rw [foldl_flag_append _ (targetColumnFlag (buildColumnMap s1.columns))
      (targetColumnEntry t (buildColumnMap s1.columns)) _
      (fun acc p => targetStep_eq t (buildColumnMap s1.columns) acc p)]
  by_cases hpk : compareStringSlices s1.primaryKeys s2.primaryKeys <;>
    simp [hpk, List.append_assoc]

lemma insertOrReplaceAssoc_of_not_mem {α : Type} (m : List (String × α)) (k : String) (v : α)
    (h : k ∉ m.map Prod.fst) : insertOrReplaceAssoc m k v = m ++ [(k, v)] := by
  induction m with
  | nil => rfl
  | cons p rest ih =>
    obtain ⟨k', v'⟩ := p
    have hne : k' ≠ k := by
      intro he
      exact h (by simp [he])
    have hrest : k ∉ rest.map Prod.fst := by
      intro hk
      exact h (by simp [hk])
    simp [insertOrReplaceAssoc, hne, ih hrest]

lemma foldl_insert_fresh (cols : List ColumnSchema) :
    ∀ m : List (String × ColumnSchema),
      (∀ c ∈ cols, c.name ∉ m.map Prod.fst) → (cols.map ColumnSchema.name).Nodup →
      cols.foldl (fun m col => insertOrReplaceAssoc m col.name col) m
        = m ++ cols.map fun c => (c.name, c) := by
  induction cols with
  | nil =>
    intro m _ _
    simp
  | cons c rest ih =>
    intro m hdisj hnd
    rw [List.map_cons, List.nodup_cons] at hnd
    rw [List.foldl_cons,
      insertOrReplaceAssoc_of_not_mem m c.name c (hdisj c (by simp)),
      ih (m ++ [(c.name, c)]) ?_ hnd.2]
    · simp
    · intro d hd
      rw [List.map_append, List.mem_append]
      rintro (hk | hk)
      · exact hdisj d (by simp [hd]) hk
      · have hdc : d.name = c.name := by simpa using hk
        exact hnd.1 (hdc ▸ List.mem_map_of_mem ColumnSchema.name hd)

lemma buildColumnMap_eq (cols : List ColumnSchema) (h : (cols.map ColumnSchema.name).Nodup) :
    buildColumnMap cols = cols.map fun c => (c.name, c) := by
  simpa using foldl_insert_fresh cols [] (by simp) h

lemma map_fst_map_pair (cols : List ColumnSchema) :
    (cols.map fun c => (c.name, c)).map Prod.fst = cols.map ColumnSchema.name := by
  simp [List.map_map]

lemma lookupAssoc_map_pair (cols : List ColumnSchema) (hnd : (cols.map ColumnSchema.name).Nodup)
    (c : ColumnSchema) (hc : c ∈ cols) :
    lookupAssoc (cols.map fun d => (d.name, d)) c.name = some c := by
  induction cols with
  | nil => cases hc
  | cons d rest ih =>
    rw [List.map_cons, List.nodup_cons] at hnd
    rcases List.mem_cons.1 hc with h | h
    · subst h
      simp [lookupAssoc]
    · have hdn : d.name ≠ c.name := by
        intro he
        exact hnd.1 (he ▸ List.mem_map_of_mem ColumnSchema.name h)
      simp only [List.map_cons, lookupAssoc, if_neg hdn]
      exact ih hnd.2 h

lemma countP_sourceColumnEntry_onlySource (t : String) (m : List (String × ColumnSchema))
    (p : String × ColumnSchema) (n : String) :
    (sourceColumnEntry t m p).countP (isColumnOnlyInSourceFor n) =
      if p.1 = n ∧ lookupAssoc m p.1 = none then 1 else 0 := by
  cases h : lookupAssoc m p.1 with
  | none =>
    by_cases hn : p.1 = n
    · subst hn
      simp [sourceColumnEntry, h, isColumnOnlyInSourceFor, List.countP_cons]
    · simp [sourceColumnEntry, h, isColumnOnlyInSourceFor, hn, List.countP_cons]
  | some tc =>
    by_cases h1 : p.2.dataType = tc.dataType <;> by_cases h2 : p.2.nullable = tc.nullable <;>
      simp [sourceColumnEntry, h, isColumnOnlyInSourceFor, h1, h2,
        List.countP_cons, List.countP_append]

lemma countP_sourceColumnEntry_onlyTarget (t : String) (m : List (String × ColumnSchema))
    (p : String × ColumnSchema) (n : String) :
    (sourceColumnEntry t m p).countP (isColumnOnlyInTargetFor n) = 0 := by
  cases h : lookupAssoc m p.1 with
  | none => simp [sourceColumnEntry, h, isColumnOnlyInTargetFor, List.countP_cons]
  | some tc =>
    by_cases h1 : p.2.dataType = tc.dataType <;> by_cases h2 : p.2.nullable = tc.nullable <;>
      simp [sourceColumnEntry, h, isColumnOnlyInTargetFor, h1, h2,
        List.countP_cons, List.countP_append]

lemma countP_sourceColumnEntry_dataType (t : String) (m : List (String × ColumnSchema))
    (p : String × ColumnSchema) (n : String) (tc : ColumnSchema)
    (h : lookupAssoc m p.1 = some tc) :
    (sourceColumnEntry t m p).countP (isDataTypeDiffFor n) =
      if p.1 = n ∧ p.2.dataType ≠ tc.dataType then 1 else 0 := by
  by_cases hn : p.1 = n
  · subst hn
    by_cases h1 : p.2.dataType = tc.dataType <;> by_cases h2 : p.2.nullable = tc.nullable <;>
      simp [sourceColumnEntry, h, isDataTypeDiffFor, h1, h2,
        List.countP_cons, List.countP_append]
  · by_cases h1 : p.2.dataType = tc.dataType <;> by_cases h2 : p.2.nullable = tc.nullable <;>
      simp [sourceColumnEntry, h, isDataTypeDiffFor, h1, h2, hn,
        List.countP_cons, List.countP_append]

lemma countP_sourceColumnEntry_dataType_none (t : String) (m : List (String × ColumnSchema))
    (p : String × ColumnSchema) (n : String) (h : lookupAssoc m p.1 = none) :
    (sourceColumnEntry t m p).countP (isDataTypeDiffFor n) = 0 := by
  simp [sourceColumnEntry, h, isDataTypeDiffFor, List.countP_cons]

lemma countP_sourceColumnEntry_nullable (t : String) (m : List (String × ColumnSchema))
    (p : String × ColumnSchema) (n : String) (tc : ColumnSchema)
    (h : lookupAssoc m p.1 = some tc) :
    (sourceColumnEntry t m p).countP (isNullableDiffFor n) =
      if p.1 = n ∧ p.2.nullable ≠ tc.nullable then 1 else 0 := by
  by_cases hn : p.1 = n
  · subst hn
    by_cases h1 : p.2.dataType = tc.dataType <;> by_cases h2 : p.2.nullable = tc.nullable <;>
      simp [sourceColumnEntry, h, isNullableDiffFor, h1, h2,
        List.countP_cons, List.countP_append]
  · by_cases h1 : p.2.dataType = tc.dataType <;> by_cases h2 : p.2.nullable = tc.nullable <;>
      simp [sourceColumnEntry, h, isNullableDiffFor, h1, h2, hn,
        List.countP_cons, List.countP_append]

lemma countP_sourceColumnEntry_nullable_none (t : String) (m : List (String × ColumnSchema))
    (p : String × ColumnSchema) (n : String) (h : lookupAssoc m p.1 = none) :
    (sourceColumnEntry t m p).countP (isNullableDiffFor n) = 0 := by
  simp [sourceColumnEntry, h, isNullableDiffFor, List.countP_cons]

lemma countP_targetColumnEntry_of_not (t : String) (m : List (String × ColumnSchema))
    (p : String × ColumnSchema) (pred : DiffEntry → Bool)
    (h : pred (DiffEntry.columnOnlyInTarget t p.1) = false) :
    (targetColumnEntry t m p).countP pred = 0 := by
  cases hl : lookupAssoc m p.1 <;> simp [targetColumnEntry, hl, List.countP_cons, h]

lemma countP_targetColumnEntry_onlyTarget (t : String) (m : List (String × ColumnSchema))
    (p : String × ColumnSchema) (n : String) :
    (targetColumnEntry t m p).countP (isColumnOnlyInTargetFor n) =
      if p.1 = n ∧ lookupAssoc m p.1 = none then 1 else 0 := by
  cases hl : lookupAssoc m p.1 with
  | none =>
    by_cases hn : p.1 = n
    · subst hn
      simp [targetColumnEntry, hl, isColumnOnlyInTargetFor, List.countP_cons]
    · simp [targetColumnEntry, hl, isColumnOnlyInTargetFor, hn, List.countP_cons]
  | some tc => simp [targetColumnEntry, hl]

lemma sum_map_pair_single (cols : List ColumnSchema)
    (hnd : (cols.map ColumnSchema.name).Nodup) (c : ColumnSchema) (hc : c ∈ cols)
    (g : String × ColumnSchema → Nat)
    (hz : ∀ d ∈ cols, d.name ≠ c.name → g (d.name, d) = 0) :
    ((cols.map fun d => (d.name, d)).map g).sum = g (c.name, c) := by
  induction cols with
  | nil => cases hc
  | cons d rest ih =>
    rw [List.map_cons, List.nodup_cons] at hnd
    rw [List.map_cons, List.map_cons, List.sum_cons]
    rcases List.mem_cons.1 hc with h | h
    · subst h
      have hrest : ∀ e ∈ rest, e.name ≠ c.name := by
        intro e he heq
        exact hnd.1 (heq ▸ List.mem_map_of_mem ColumnSchema.name he)
      have hzero : ((rest.map fun d => (d.name, d)).map g).sum = 0 := by
        apply List.sum_eq_zero
        intro x hx
        rcases List.mem_map.1 hx with ⟨q, hq, rfl⟩
        rcases List.mem_map.1 hq with ⟨e, he, rfl⟩
        exact hz e (List.mem_cons_of_mem _ he) (hrest e he)
      rw [hzero]
      omega
    · have hdn : d.name ≠ c.name := fun he =>
        hnd.1 (he ▸ List.mem_map_of_mem ColumnSchema.name h)
      rw [hz d (by simp) hdn, ih hnd.2 h (fun e he hne => hz e (by simp [he]) hne)]
      omega

lemma countP_sourceColumnEntry_dataType_ne (t : String) (m : List (String × ColumnSchema))
    (p : String × ColumnSchema) (n : String) (hne : p.1 ≠ n) :
    (sourceColumnEntry t m p).countP (isDataTypeDiffFor n) = 0 := by
  cases h : lookupAssoc m p.1 with
  | none => exact countP_sourceColumnEntry_dataType_none t m p n h
  | some tc => simp [countP_sourceColumnEntry_dataType t m p n tc h, hne]

lemma countP_sourceColumnEntry_nullable_ne (t : String) (m : List (String × ColumnSchema))
    (p : String × ColumnSchema) (n : String) (hne : p.1 ≠ n) :
    (sourceColumnEntry t m p).countP (isNullableDiffFor n) = 0 := by
  cases h : lookupAssoc m p.1 with
  | none => exact countP_sourceColumnEntry_nullable_none t m p n h
  | some tc => simp [countP_sourceColumnEntry_nullable t m p n tc h, hne]

lemma countP_flatMap_sourceEntry_onlyTarget_zero (t : String)
    (m l : List (String × ColumnSchema)) (n : String) :
    (l.flatMap (sourceColumnEntry t m)).countP (isColumnOnlyInTargetFor n) = 0 := by
  rw [List.countP_flatMap]
  apply List.sum_eq_zero
  intro x hx
  rcases List.mem_map.1 hx with ⟨q, hq, rfl⟩
  simpa [Function.comp] using countP_sourceColumnEntry_onlyTarget t m q n

lemma countP_flatMap_targetEntry_pred_zero (t : String)
    (m l : List (String × ColumnSchema)) (pred : DiffEntry → Bool)
    (h : ∀ cn : String, pred (DiffEntry.columnOnlyInTarget t cn) = false) :
    (l.flatMap (targetColumnEntry t m)).countP pred = 0 := by
  rw [List.countP_flatMap]
  apply List.sum_eq_zero
  intro x hx
  rcases List.mem_map.1 hx with ⟨q, hq, rfl⟩
  simpa [Function.comp] using countP_targetColumnEntry_of_not t m q pred (h q.1)

lemma countP_flatMap_sourceEntry_onlySource_zero (t : String)
    (m : List (String × ColumnSchema)) (cols : List ColumnSchema) (n : String)
    (hn : n ∉ cols.map ColumnSchema.name) :
    ((cols.map fun d => (d.name, d)).flatMap (sourceColumnEntry t m)).countP
      (isColumnOnlyInSourceFor n) = 0 := by
  rw [List.countP_flatMap]
  apply List.sum_eq_zero
  intro x hx
  rcases List.mem_map.1 hx with ⟨q, hq, rfl⟩
  rcases List.mem_map.1 hq with ⟨e, he, rfl⟩
  have hne : e.name ≠ n := fun heq => hn (heq ▸ List.mem_map_of_mem ColumnSchema.name he)
  simp [Function.comp, countP_sourceColumnEntry_onlySource, hne]

lemma countP_flatMap_targetEntry_onlyTarget_zero (t : String)
    (m : List (String × ColumnSchema)) (cols : List ColumnSchema) (n : String)
    (hn : n ∉ cols.map ColumnSchema.name) :
    ((cols.map fun d => (d.name, d)).flatMap (targetColumnEntry t m)).countP
      (isColumnOnlyInTargetFor n) = 0 := by
  rw [List.countP_flatMap]
  apply List.sum_eq_zero
  intro x hx
  rcases List.mem_map.1 hx with ⟨q, hq, rfl⟩
  rcases List.mem_map.1 hq with ⟨e, he, rfl⟩
  have hne : e.name ≠ n := fun heq => hn (heq ▸ List.mem_map_of_mem ColumnSchema.name he)
  simp [Function.comp, countP_targetColumnEntry_onlyTarget, hne]

lemma countP_pkPart_zero (t : String) (a b : List String) (pred : DiffEntry → Bool)
    (h : ∀ x (y z : List String), pred (DiffEntry.primaryKeysDiff x y z) = false) (c : Bool) :
    (if c then ([] : List DiffEntry) else [DiffEntry.primaryKeysDiff t a b]).countP pred = 0 := by
  cases c <;> simp [List.countP_cons, h]

lemma compareTableSchema_countP (t : String) (s1 s2 : TableSchema) (pred : DiffEntry → Bool) :
    (compareTableSchema t s1 s2).2.countP pred =
      ((buildColumnMap s1.columns).flatMap
        (sourceColumnEntry t (buildColumnMap s2.columns))).countP pred +
      ((buildColumnMap s2.columns).flatMap
        (targetColumnEntry t (buildColumnMap s1.columns))).countP pred +
      (if compareStringSlices s1.primaryKeys s2.primaryKeys then ([] : List DiffEntry)
       else [DiffEntry.primaryKeysDiff t s1.primaryKeys s2.primaryKeys]).countP pred := by
  rw [compareTableSchema_snd, List.countP_append, List.countP_append]

/-- C4: for every pair of table schemas with well-formed (duplicate-free)
column names, a column present only in the source yields exactly one
"exists in source but not in target" entry and zero "exists in target but
not in source" entries for that column, and symmetrically; for a column
present on both sides exactly one entry is emitted per mismatching
property among the data type and the nullable marker. -/
theorem compareTableSchema_symmetric_difference (t : String) (s1 s2 : TableSchema)
    (h1 : (s1.columns.map ColumnSchema.name).Nodup)
    (h2 : (s2.columns.map ColumnSchema.name).Nodup) :
    (∀ c ∈ s1.columns, c.name ∉ s2.columns.map ColumnSchema.name →
      (compareTableSchema t s1 s2).2.countP (isColumnOnlyInSourceFor c.name) = 1 ∧
      (compareTableSchema t s1 s2).2.countP (isColumnOnlyInTargetFor c.name) = 0) ∧
    (∀ c ∈ s2.columns, c.name ∉ s1.columns.map ColumnSchema.name →
      (compareTableSchema t s1 s2).2.countP (isColumnOnlyInTargetFor c.name) = 1 ∧
      (compareTableSchema t s1 s2).2.countP (isColumnOnlyInSourceFor c.name) = 0) ∧
    (∀ c ∈ s1.columns, ∀ c' ∈ s2.columns, c.name = c'.name →
      (compareTableSchema t s1 s2).2.countP (isDataTypeDiffFor c.name) =
        (if c.dataType = c'.dataType then 0 else 1) ∧
      (compareTableSchema t s1 s2).2.countP (isNullableDiffFor c.name) =
        (if c.nullable = c'.nullable then 0 else 1)) := by
  have hbm1 : buildColumnMap s1.columns = s1.columns.map fun c => (c.name, c) :=
    buildColumnMap_eq _ h1
  have hbm2 : buildColumnMap s2.columns = s2.columns.map fun c => (c.name, c) :=
    buildColumnMap_eq _ h2
  refine ⟨?_, ?_, ?_⟩
  · intro c hc hnot
    have hlook2 : lookupAssoc (s2.columns.map fun d => (d.name, d)) c.name = none :=
      (lookupAssoc_eq_none_iff _ _).2 (by rw [map_fst_map_pair]; exact hnot)
    constructor
    · have hA : ((s1.columns.map fun d => (d.name, d)).flatMap
          (sourceColumnEntry t (s2.columns.map fun d => (d.name, d)))).countP
          (isColumnOnlyInSourceFor c.name) = 1 := by
        rw [List.countP_flatMap, sum_map_pair_single s1.columns h1 c hc]
        · simp [Function.comp, countP_sourceColumnEntry_onlySource, hlook2]
        · intro d hd hdn
          simp [Function.comp, countP_sourceColumnEntry_onlySource, hdn]
      have hB : ((s2.columns.map fun d => (d.name, d)).flatMap
          (targetColumnEntry t (s1.columns.map fun d => (d.name, d)))).countP
          (isColumnOnlyInSourceFor c.name) = 0 :=
        countP_flatMap_targetEntry_pred_zero t _ _ _ (fun cn => rfl)
      have hP := countP_pkPart_zero t s1.primaryKeys s2.primaryKeys
        (isColumnOnlyInSourceFor c.name) (fun x y z => rfl)
        (compareStringSlices s1.primaryKeys s2.primaryKeys)
      rw [compareTableSchema_countP, hbm1, hbm2, hA, hB, hP]
    · have hA := countP_flatMap_sourceEntry_onlyTarget_zero t
        (s2.columns.map fun d => (d.name, d)) (s1.columns.map fun d => (d.name, d)) c.name
      have hB := countP_flatMap_targetEntry_onlyTarget_zero t
        (s1.columns.map fun d => (d.name, d)) s2.columns c.name hnot
      have hP := countP_pkPart_zero t s1.primaryKeys s2.primaryKeys
        (isColumnOnlyInTargetFor c.name) (fun x y z => rfl)
        (compareStringSlices s1.primaryKeys s2.primaryKeys)
      rw [compareTableSchema_countP, hbm1, hbm2, hA, hB, hP]
  · intro c hc hnot
    have hlook1 : lookupAssoc (s1.columns.map fun d => (d.name, d)) c.name = none :=
      (lookupAssoc_eq_none_iff _ _).2 (by rw [map_fst_map_pair]; exact hnot)
    constructor
    · have hA := countP_flatMap_sourceEntry_onlyTarget_zero t
        (s2.columns.map fun d => (d.name, d)) (s1.columns.map fun d => (d.name, d)) c.name
      have hB : ((s2.columns.map fun d => (d.name, d)).flatMap
          (targetColumnEntry t (s1.columns.map fun d => (d.name, d)))).countP
          (isColumnOnlyInTargetFor c.name) = 1 := by
        rw [List.countP_flatMap, sum_map_pair_single s2.columns h2 c hc]
        · simp [Function.comp, countP_targetColumnEntry_onlyTarget, hlook1]
        · intro d hd hdn
          simp [Function.comp, countP_targetColumnEntry_onlyTarget, hdn]
      have hP := countP_pkPart_zero t s1.primaryKeys s2.primaryKeys
        (isColumnOnlyInTargetFor c.name) (fun x y z => rfl)
        (compareStringSlices s1.primaryKeys s2.primaryKeys)
      rw [compareTableSchema_countP, hbm1, hbm2, hA, hB, hP]
    · have hA := countP_flatMap_sourceEntry_onlySource_zero t
        (s2.columns.map fun d => (d.name, d)) s1.columns c.name hnot
      have hB : ((s2.columns.map fun d => (d.name, d)).flatMap
          (targetColumnEntry t (s1.columns.map fun d => (d.name, d)))).countP
          (isColumnOnlyInSourceFor c.name) = 0 :=
        countP_flatMap_targetEntry_pred_zero t _ _ _ (fun cn => rfl)
      have hP := countP_pkPart_zero t s1.primaryKeys s2.primaryKeys
        (isColumnOnlyInSourceFor c.name) (fun x y z => rfl)
        (compareStringSlices s1.primaryKeys s2.primaryKeys)
      rw [compareTableSchema_countP, hbm1, hbm2, hA, hB, hP]
  · intro c hc c' hc' hcc
    have hlook : lookupAssoc (s2.columns.map fun d => (d.name, d)) c.name = some c' := by
      rw [hcc]
      exact lookupAssoc_map_pair s2.columns h2 c' hc'
    constructor
    · have hA : ((s1.columns.map fun d => (d.name, d)).flatMap
          (sourceColumnEntry t (s2.columns.map fun d => (d.name, d)))).countP
          (isDataTypeDiffFor c.name) = if c.dataType = c'.dataType then 0 else 1 := by
        rw [List.countP_flatMap, sum_map_pair_single s1.columns h1 c hc]
        · by_cases hdt : c.dataType = c'.dataType <;>
            simp [Function.comp,
              countP_sourceColumnEntry_dataType t (s2.columns.map fun d => (d.name, d))
                (c.name, c) c.name c' hlook, hdt]
        · intro d hd hdn
          simp [Function.comp,
            countP_sourceColumnEntry_dataType_ne t (s2.columns.map fun e => (e.name, e))
              (d.name, d) c.name hdn]
      have hB : ((s2.columns.map fun d => (d.name, d)).flatMap
          (targetColumnEntry t (s1.columns.map fun d => (d.name, d)))).countP
          (isDataTypeDiffFor c.name) = 0 :=
        countP_flatMap_targetEntry_pred_zero t _ _ _ (fun cn => rfl)
      have hP := countP_pkPart_zero t s1.primaryKeys s2.primaryKeys
        (isDataTypeDiffFor c.name) (fun x y z => rfl)
        (compareStringSlices s1.primaryKeys s2.primaryKeys)
      rw [compareTableSchema_countP, hbm1, hbm2, hA, hB, hP]
      omega
    · have hA : ((s1.columns.map fun d => (d.name, d)).flatMap
          (sourceColumnEntry t (s2.columns.map fun d => (d.name, d)))).countP
          (isNullableDiffFor c.name) = if c.nullable = c'.nullable then 0 else 1 := by
        rw [List.countP_flatMap, sum_map_pair_single s1.columns h1 c hc]
        · by_cases hnu : c.nullable = c'.nullable <;>
            simp [Function.comp,
              countP_sourceColumnEntry_nullable t (s2.columns.map fun d => (d.name, d))
                (c.name, c) c.name c' hlook, hnu]
        · intro d hd hdn
          simp [Function.comp,
            countP_sourceColumnEntry_nullable_ne t (s2.columns.map fun e => (e.name, e))
              (d.name, d) c.name hdn]
      have hB : ((s2.columns.map fun d => (d.name, d)).flatMap
          (targetColumnEntry t (s1.columns.map fun d => (d.name, d)))).countP
          (isNullableDiffFor c.name) = 0 :=
        countP_flatMap_targetEntry_pred_zero t _ _ _ (fun cn => rfl)
      have hP := countP_pkPart_zero t s1.primaryKeys s2.primaryKeys
        (isNullableDiffFor c.name) (fun x y z => rfl)
        (compareStringSlices s1.primaryKeys s2.primaryKeys)
      rw [compareTableSchema_countP, hbm1, hbm2, hA, hB, hP]
      omega

lemma sourceColumnEntry_pred_false (t : String) (m : List (String × ColumnSchema))
    (p : String × ColumnSchema) (pred : DiffEntry → Bool)
    (hos : ∀ tn cn, pred (DiffEntry.columnOnlyInSource tn cn) = false)
    (hdt : ∀ tn cn a b, pred (DiffEntry.columnDataTypeDiff tn cn a b) = false)
    (hnu : ∀ tn cn a b, pred (DiffEntry.columnNullableDiff tn cn a b) = false) :
    ∀ e ∈ sourceColumnEntry t m p, pred e = false := by
  intro e he
  cases hl : lookupAssoc m p.1 with
  | none =>
    simp only [sourceColumnEntry, hl, List.mem_singleton] at he
    subst he
    exact hos t p.1
  | some tc =>
    simp only [sourceColumnEntry, hl] at he
    rcases List.mem_append.1 he with he | he
    · by_cases hd : p.2.dataType = tc.dataType
      · simp [hd] at he
      · simp [hd] at he
        subst he
        exact hdt t p.1 _ _
    · by_cases hn : p.2.nullable = tc.nullable
      · simp [hn] at he
      · simp [hn] at he
        subst he
        exact hnu t p.1 _ _

lemma targetColumnEntry_pred_false (t : String) (m : List (String × ColumnSchema))
    (p : String × ColumnSchema) (pred : DiffEntry → Bool)
    (hot : ∀ tn cn, pred (DiffEntry.columnOnlyInTarget tn cn) = false) :
    ∀ e ∈ targetColumnEntry t m p, pred e = false := by
  intro e he
  cases hl : lookupAssoc m p.1 with
  | none =>
    simp only [targetColumnEntry, hl, List.mem_singleton] at he
    subst he
    exact hot t p.1
  | some tc => simp [targetColumnEntry, hl] at he

lemma compareTableSchema_entries_pred_false (t : String) (s1 s2 : TableSchema)
    (pred : DiffEntry → Bool)
    (hos : ∀ tn cn, pred (DiffEntry.columnOnlyInSource tn cn) = false)
    (hdt : ∀ tn cn a b, pred (DiffEntry.columnDataTypeDiff tn cn a b) = false)
    (hnu : ∀ tn cn a b, pred (DiffEntry.columnNullableDiff tn cn a b) = false)
    (hot : ∀ tn cn, pred (DiffEntry.columnOnlyInTarget tn cn) = false)
    (hpk : ∀ tn (a b : List String), pred (DiffEntry.primaryKeysDiff tn a b) = false) :
    ∀ e ∈ (compareTableSchema t s1 s2).2, pred e = false := by
  intro e he
  rw [compareTableSchema_snd] at he
  rcases List.mem_append.1 he with he | he
  · rcases List.mem_append.1 he with he | he
    · rcases List.mem_flatMap.1 he with ⟨p, hp, hep⟩
      exact sourceColumnEntry_pred_false t _ p pred hos hdt hnu e hep
    · rcases List.mem_flatMap.1 he with ⟨p, hp, hep⟩
      exact targetColumnEntry_pred_false t _ p pred hot e hep
  · by_cases hpkif : compareStringSlices s1.primaryKeys s2.primaryKeys
    · simp [hpkif] at he
    · simp only [hpkif, if_false, Bool.false_eq_true, List.mem_singleton] at he
      subst he
      exact hpk t _ _

/-- C5: primary-key comparison is order-independent: whenever the two
primary-key lists are permutations of each other, `compareStringSlices`
returns true and `compareTableSchema` emits no primary-key difference
entry. -/
theorem primaryKey_order_independent (t : String) (s1 s2 : TableSchema)
    (h : s1.primaryKeys.Perm s2.primaryKeys) :
    compareStringSlices s1.primaryKeys s2.primaryKeys = true ∧
    (compareTableSchema t s1 s2).2.countP DiffEntry.isPrimaryKeysDiff = 0 := by
  have hcss : compareStringSlices s1.primaryKeys s2.primaryKeys = true :=
    (compareStringSlices_eq_true_iff _ _).mpr ⟨h.length_eq, fun x => h.mem_iff⟩
  refine ⟨hcss, ?_⟩
  rw [List.countP_eq_zero]
  intro e he
  rw [compareTableSchema_snd, if_pos hcss, List.append_nil] at he
  rcases List.mem_append.1 he with he | he
  · rcases List.mem_flatMap.1 he with ⟨p, hp, hep⟩
    have := sourceColumnEntry_pred_false t _ p DiffEntry.isPrimaryKeysDiff
      (fun _ _ => rfl) (fun _ _ _ _ => rfl) (fun _ _ _ _ => rfl) e hep
    simp [this]
  · rcases List.mem_flatMap.1 he with ⟨p, hp, hep⟩
    have := targetColumnEntry_pred_false t _ p DiffEntry.isPrimaryKeysDiff
      (fun _ _ => rfl) e hep
    simp [this]

/-- Witness for C5: primary keys declared as a, b versus b, a compare
equal and produce no primary-key difference entry. -/
theorem primaryKey_order_independent_witness :
    compareStringSlices fixturePKSource.primaryKeys fixturePKTarget.primaryKeys = true ∧
    (compareTableSchema "t" fixturePKSource fixturePKTarget).2.countP
      DiffEntry.isPrimaryKeysDiff = 0 :=
  primaryKey_order_independent "t" fixturePKSource fixturePKTarget (List.Perm.swap "b" "a" [])

/-- C6: the index and foreign-key comparison results are never folded into
the returned difference list: `compareIndexes` and `compareForeignKeys`
return false for every pair of inputs no matter how many notices they
produce, and the difference list returned by `compareTableSchema` never
contains an index or foreign-key entry. -/
theorem index_fk_findings_never_folded :
    (∀ (tn : String) (si ti : List IndexSchema), (compareIndexes tn si ti).2 = false) ∧
    (∀ (tn : String) (sf tf : List ForeignKeySchema), (compareForeignKeys tn sf tf).2 = false) ∧
    (∀ (tn : String) (s1 s2 : TableSchema),
      (compareTableSchema tn s1 s2).2.all (fun e => !(e.isIndexOrForeignKeyNotice)) = true) := by
  refine ⟨fun tn si ti => rfl, fun tn sf tf => rfl, fun tn s1 s2 => ?_⟩
  rw [List.all_eq_true]
  intro e he
  have hfalse := compareTableSchema_entries_pred_false tn s1 s2
    DiffEntry.isIndexOrForeignKeyNotice (fun _ _ => rfl) (fun _ _ _ _ => rfl)
    (fun _ _ _ _ => rfl) (fun _ _ => rfl) (fun _ _ _ => rfl) e he
  simp [hfalse]

lemma compareDatabases_first_step_eq (targetSchemas : List (String × TableSchema))
    (acc : List String × List String × List (String × List DiffEntry))
    (p : String × TableSchema) :
    (match lookupAssoc targetSchemas p.1 with
     | none => (acc.1 ++ [p.1], acc.2.1, acc.2.2)
     | some targetSchema =>
       let res := compareTableSchema p.1 p.2 targetSchema
       let newDiffs := if res.1 then acc.2.2 ++ [(p.1, res.2)] else acc.2.2
       (acc.1, acc.2.1 ++ [p.1], newDiffs))
    = (acc.1 ++ missingEntry targetSchemas p, acc.2.1 ++ commonEntry targetSchemas p,
       acc.2.2 ++ schemaDiffEntry targetSchemas p) := by
  cases h : lookupAssoc targetSchemas p.1 with
  | none => simp [missingEntry, commonEntry, schemaDiffEntry, h]
  | some ts =>
    simp only [missingEntry, commonEntry, schemaDiffEntry, h]
    by_cases hd : (compareTableSchema p.1 p.2 ts).1 <;> simp [hd]

lemma compareDatabases_second_step_eq (sourceSchemas : List (String × TableSchema))
    (acc : List String) (p : String × TableSchema) :
    (match lookupAssoc sourceSchemas p.1 with
     | none => acc ++ [p.1]
     | some _ => acc) = acc ++ extraEntry sourceSchemas p := by
  cases h : lookupAssoc sourceSchemas p.1 <;> simp [extraEntry, h]

lemma compareDatabases_eq (s tgt : List (String × TableSchema)) :
    compareDatabases s tgt =
      (s.flatMap (missingEntry tgt), tgt.flatMap (extraEntry s),
       s.flatMap (commonEntry tgt), s.flatMap (schemaDiffEntry tgt)) := by
  simp only [compareDatabases]
  rw [foldl_triple_append _ (missingEntry tgt) (commonEntry tgt) (schemaDiffEntry tgt) _
      (fun acc p => compareDatabases_first_step_eq tgt acc p)]
  rw [foldl_append_shape _ (extraEntry s) _
      (fun acc p => compareDatabases_second_step_eq s acc p)]
  simp

lemma mem_flatMap_missingEntry (tgt s : List (String × TableSchema)) (name : String) :
    name ∈ s.flatMap (missingEntry tgt) ↔
      name ∈ s.map Prod.fst ∧ name ∉ tgt.map Prod.fst := by
  rw [List.mem_flatMap]
  constructor
  · rintro ⟨p, hp, hname⟩
    cases h : lookupAssoc tgt p.1 with
    | none =>
      simp [missingEntry, h] at hname
      subst hname
      exact ⟨List.mem_map_of_mem _ hp, (lookupAssoc_eq_none_iff _ _).1 h⟩
    | some _ => simp [missingEntry, h] at hname
  · rintro ⟨hmem, hnone⟩
    rcases List.mem_map.1 hmem with ⟨p, hp, rfl⟩
    exact ⟨p, hp, by simp [missingEntry, (lookupAssoc_eq_none_iff _ _).2 hnone]⟩

lemma mem_flatMap_extraEntry (s tgt : List (String × TableSchema)) (name : String) :
    name ∈ tgt.flatMap (extraEntry s) ↔
      name ∈ tgt.map Prod.fst ∧ name ∉ s.map Prod.fst := by
  rw [List.mem_flatMap]
  constructor
  · rintro ⟨p, hp, hname⟩
    cases h : lookupAssoc s p.1 with
    | none =>
      simp [extraEntry, h] at hname
      subst hname
      exact ⟨List.mem_map_of_mem _ hp, (lookupAssoc_eq_none_iff _ _).1 h⟩
    | some _ => simp [extraEntry, h] at hname
  · rintro ⟨hmem, hnone⟩
    rcases List.mem_map.1 hmem with ⟨p, hp, rfl⟩
    exact ⟨p, hp, by simp [extraEntry, (lookupAssoc_eq_none_iff _ _).2 hnone]⟩

lemma mem_flatMap_commonEntry (tgt s : List (String × TableSchema)) (name : String) :
    name ∈ s.flatMap (commonEntry tgt) ↔
      name ∈ s.map Prod.fst ∧ name ∈ tgt.map Prod.fst := by
  rw [List.mem_flatMap]
  constructor
  · rintro ⟨p, hp, hname⟩
    cases h : lookupAssoc tgt p.1 with
    | none => simp [commonEntry, h] at hname
    | some _ =>
      simp [commonEntry, h] at hname
      subst hname
      refine ⟨List.mem_map_of_mem _ hp, ?_⟩
      by_contra hne
      rw [← lookupAssoc_eq_none_iff] at hne
      simp [h] at hne
  · rintro ⟨hmem, htgt⟩
    rcases List.mem_map.1 hmem with ⟨p, hp, rfl⟩
    refine ⟨p, hp, ?_⟩
    cases h : lookupAssoc tgt p.1 with
    | none => exact absurd htgt ((lookupAssoc_eq_none_iff _ _).1 h)
    | some _ => simp [commonEntry, h]

/-- C3: the three table-name lists returned by `compareDatabases` form an
exhaustive and disjoint partition of the union of the two key sets: every
table name of source or target is in exactly one of missing, extra and
common, and each list only contains names from the corresponding side. -/
theorem compareDatabases_partition (s tgt : List (String × TableSchema)) :
    (∀ name, (name ∈ s.map Prod.fst ∨ name ∈ tgt.map Prod.fst) ↔
      (name ∈ (compareDatabases s tgt).1 ∨ name ∈ (compareDatabases s tgt).2.1 ∨
       name ∈ (compareDatabases s tgt).2.2.1)) ∧
    (∀ name, name ∈ (compareDatabases s tgt).1 →
      name ∉ (compareDatabases s tgt).2.1 ∧ name ∉ (compareDatabases s tgt).2.2.1) ∧
    (∀ name, name ∈ (compareDatabases s tgt).2.1 →
      name ∉ (compareDatabases s tgt).1 ∧ name ∉ (compareDatabases s tgt).2.2.1) ∧
    (∀ name, name ∈ (compareDatabases s tgt).2.2.1 →
      name ∉ (compareDatabases s tgt).1 ∧ name ∉ (compareDatabases s tgt).2.1) ∧
    (∀ name ∈ (compareDatabases s tgt).1, name ∈ s.map Prod.fst) ∧
    (∀ name ∈ (compareDatabases s tgt).2.1, name ∈ tgt.map Prod.fst) ∧
    (∀ name ∈ (compareDatabases s tgt).2.2.1,
      name ∈ s.map Prod.fst ∧ name ∈ tgt.map Prod.fst) := by
  have hm : ∀ name, name ∈ (compareDatabases s tgt).1 ↔
      name ∈ s.map Prod.fst ∧ name ∉ tgt.map Prod.fst := by
    intro name
    rw [compareDatabases_eq]
    exact mem_flatMap_missingEntry tgt s name
  have hx : ∀ name, name ∈ (compareDatabases s tgt).2.1 ↔
      name ∈ tgt.map Prod.fst ∧ name ∉ s.map Prod.fst := by
    intro name
    rw [compareDatabases_eq]
    exact mem_flatMap_extraEntry s tgt name
  have hc : ∀ name, name ∈ (compareDatabases s tgt).2.2.1 ↔
      name ∈ s.map Prod.fst ∧ name ∈ tgt.map Prod.fst := by
    intro name
    rw [compareDatabases_eq]
    exact mem_flatMap_commonEntry tgt s name
  refine ⟨?_, ?_, ?_, ?_, ?_, ?_, ?_⟩
  · intro name
    rw [hm name, hx name, hc name]
    tauto
  · intro name h
    rw [hm name] at h
    rw [hx name, hc name]
    tauto
  · intro name h
    rw [hx name] at h
    rw [hm name, hc name]
    tauto
  · intro name h
    rw [hc name] at h
    rw [hm name, hx name]
    tauto
  · intro name h
    rw [hm name] at h
    exact h.1
  · intro name h
    rw [hx name] at h
    exact h.1
  · intro name h
    rw [hc name] at h
    exact h

/-- Witness for C3: with source tables users, orders and target tables
users, products, the name orders is in the missing list and in neither of
the other two lists. -/
theorem compareDatabases_partition_witness :
    "orders" ∈ (compareDatabases fixtureSourceMap fixtureTargetMap).1 ∧
    ¬ "orders" ∈ (compareDatabases fixtureSourceMap fixtureTargetMap).2.1 ∧
    ¬ "orders" ∈ (compareDatabases fixtureSourceMap fixtureTargetMap).2.2.1 := by
  have h := compareDatabases_partition fixtureSourceMap fixtureTargetMap
  have hmem : "orders" ∈ (compareDatabases fixtureSourceMap fixtureTargetMap).1 := by decide
  exact ⟨hmem, (h.2.1 "orders" hmem).1, (h.2.1 "orders" hmem).2⟩

/-- Witness for C4: in the fixture pair, the source-only column a yields
exactly one source-only entry and no target-only entry, and the shared
column b with differing data types yields exactly one data-type entry. -/
theorem compareTableSchema_symmetric_difference_witness :
    (compareTableSchema "t" fixtureC4Source fixtureC4Target).2.countP
      (isColumnOnlyInSourceFor "a") = 1 ∧
    (compareTableSchema "t" fixtureC4Source fixtureC4Target).2.countP
      (isColumnOnlyInTargetFor "a") = 0 ∧
    (compareTableSchema "t" fixtureC4Source fixtureC4Target).2.countP
      (isDataTypeDiffFor "b") = 1 := by
  have h := compareTableSchema_symmetric_difference "t" fixtureC4Source fixtureC4Target
    (by decide) (by decide)
  have ha := h.1 ⟨"a", "INT", "NO", "", none, ""⟩ (by decide) (by decide)
  have hb := h.2.2 ⟨"b", "INT", "YES", "", none, ""⟩ (by decide)
    ⟨"b", "TEXT", "NO", "", none, ""⟩ (by decide) (by decide)
  refine ⟨ha.1, ha.2, ?_⟩
  have hb1 := hb.1
  rw [if_neg (by decide : ¬ ("INT" : String) = "TEXT")] at hb1
  exact hb1
